import Mathlib

/-!
Verification development for the BA-Assist streaming client and iteration
session controller.

The embedding models the TypeScript sources:
  * `src/frontend/src/api/sse.ts`          — `connectSSE`: HTTP/SSE stream client
    and incremental frame parser;
  * `src/frontend/src/hooks/useSSE.ts`     — `useSSE`: stream-state projection,
    `start` / `cancel`, event and error callbacks;
  * `src/frontend/src/pages/IteratePage.tsx` — the iteration session controller
    (history commit, readiness flag, comparison attachment).

Strings are modelled as `List Char` (the client operates on decoded UTF-8
text; `TextDecoder` incremental decoding is abstracted away, so a chunk is a
`List Char`).  JavaScript numbers carried in payloads are modelled as `Int`
(all values the claims exercise are integral).  JSON parsing is an external
platform facility, so the parser is parameterised by a fallible decode
function `parse : Str → Option J`.
-/

namespace BAAssist

/-- Decoded text, as the client sees it (JS strings). -/
abbrev Str := List Char

/-- JS method `String.prototype.startsWith(p)`: is `p` a leading segment of `s`. -/
def startsWith : Str → Str → Bool
  | [], _ => true
  | _ :: _, [] => false
  | p :: ps, c :: cs => (p == c) && startsWith ps cs

/-- JS method `String.prototype.trim()`: strip leading and trailing whitespace. -/
def trimChars (s : Str) : Str :=
  ((s.dropWhile Char.isWhitespace).reverse.dropWhile Char.isWhitespace).reverse

/-- JS split `buffer.split("\n")`: split into segments at every newline; the
result always has one more segment than there are newlines, so a trailing
newline yields a final empty segment. -/
def splitOnNewline : Str → List Str
  | [] => [[]]
  | c :: cs =>
    if c = '\n' then [] :: splitOnNewline cs
    else
      match splitOnNewline cs with
      | [] => [[c]]
      | l :: ls => (c :: l) :: ls

/-- Payload of a parsed event: either decoded structured data, or — when
decoding the `data:` line fails — the raw-string wrapper `\x7b raw: s \x7d`
built in the `catch` arm of `connectSSE`. -/
inductive SSEData (J : Type) where
  | json (j : J)
  | raw (s : Str)
deriving DecidableEq

/-- Type `SSEEvent` from `src/frontend/src/api/types.ts`: an event name together
with its decoded payload. -/
structure SSEEvent (J : Type) where
  event : Str
  data : SSEData J
deriving DecidableEq

/-- The literal `"event: "` tested by `line.startsWith("event: ")`. -/
def eventTag : Str := "event: ".toList

/-- The literal `"data: "` tested by `line.startsWith("data: ")`. -/
def dataTag : Str := "data: ".toList

/-- The inner `for (const line of lines)` loop of `connectSSE`
(src/frontend/src/api/sse.ts lines 42–57): a line `event: n` records the
pending event name `n.trim()`; a line `data: d` records the pending payload
`d`; an empty line, when both are pending and non-empty, emits one event
(decoded, or the raw wrapper on decode failure) and resets both pending
fields; every other line leaves the pending state unchanged. -/
def processLines (parse : Str → Option J) :
    List Str → Str → Str → List (SSEEvent J)
  | [], _, _ => []
  | line :: rest, currentEvent, currentData =>
    if startsWith eventTag line then
      processLines parse rest (trimChars (line.drop 7)) currentData
    else if startsWith dataTag line then
      processLines parse rest currentEvent (line.drop 6)
    else if line = [] ∧ currentEvent ≠ [] ∧ currentData ≠ [] then
      (match parse currentData with
        | some j => SSEEvent.mk currentEvent (SSEData.json j)
        | none => SSEEvent.mk currentEvent (SSEData.raw currentData))
        :: processLines parse rest [] []
    else
      processLines parse rest currentEvent currentData

/-- One iteration of the `while (true)` read loop of `connectSSE`
(src/frontend/src/api/sse.ts lines 31–58): append the chunk to the carry
buffer, split on newlines, keep the final (possibly incomplete) segment as
the new carry buffer, and run the line loop over the complete lines.  NOTE:
faithful to the source, `currentEvent` and `currentData` are initialised to
`""` afresh for every chunk (they are declared inside the `while` loop), so
pending frame state does not survive a chunk boundary. -/
def processChunk (parse : Str → Option J) (buffer chunk : Str) :
    Str × List (SSEEvent J) :=
  let buf := buffer ++ chunk
  let parts := splitOnNewline buf
  (parts.getLastD [], processLines parse parts.dropLast [] [])

/-- Fold `processChunk` over a list of chunks, threading the carry buffer
and concatenating the emitted events in order. -/
def processChunks (parse : Str → Option J) (buffer : Str) :
    List Str → List (SSEEvent J)
  | [] => []
  | c :: cs =>
    let r := processChunk parse buffer c
    r.2 ++ processChunks parse r.1 cs

/-- The full stream parse of `connectSSE`: start from an empty carry buffer
and process the chunks in arrival order. -/
def parseSSE (parse : Str → Option J) (chunks : List Str) : List (SSEEvent J) :=
  processChunks parse [] chunks

/-- A decode function that always fails, standing in for `JSON.parse` on
payloads that are not valid JSON (used to exercise the raw-wrapper path on
concrete inputs). -/
def noParse : Str → Option Unit := fun _ => none

/-! Stream client (`connectSSE`, src/frontend/src/api/sse.ts).

The network transfer itself is external; what we embed is how the client
branches on the response, and its `catch` clause.  A JS `Error` is a name
plus a message; `AbortController.abort()` makes the pending `fetch` reject
with a `DOMException` named `"AbortError"`, which the `catch` clause of
`connectSSE` (lines 60–64) filters out before invoking `onError`. -/

/-- A JavaScript error value as observed by the `catch` clause: its `name`
and its `message`. -/
structure JsError where
  name : Str
  message : Str
deriving DecidableEq

/-- The `name` carried by the rejection produced by `AbortController.abort()`. -/
def abortName : Str := "AbortError".toList

/-- The rejection a deliberately aborted `fetch` settles with. -/
def abortError : JsError :=
  JsError.mk abortName "The operation was aborted.".toList

/-- The `catch` clause of `connectSSE` (lines 60–64): an error named
`AbortError` is swallowed; any other error is passed to `onError`. -/
def catchFilter (err : JsError) : Option JsError :=
  if err.name = abortName then none else some err

/-- An HTTP response as `connectSSE` consumes it: a status code and the body
as the list of chunks the reader yields. -/
structure HttpResponse where
  status : Nat
  bodyChunks : List Str
deriving DecidableEq

/-- JS `Response.ok`: status in the inclusive range 200–299. -/
def respOk (r : HttpResponse) : Bool :=
  200 ≤ r.status && r.status ≤ 299

/-- JS `response.text()`: the whole body as one string. -/
def bodyText (r : HttpResponse) : Str := r.bodyChunks.flatten

/-- The message of the error thrown on a non-ok status (line 21):
`HTTP <status>: <body>`. -/
def httpErrorMsg (r : HttpResponse) : Str :=
  "HTTP ".toList ++ (Nat.repr r.status).toList ++ ": ".toList ++ bodyText r

/-- What one run of `connectSSE` delivers to its caller: the events passed
to `onEvent` in order, and the messages passed to `onError` in order. -/
structure SSEOutcome (J : Type) where
  events : List (SSEEvent J)
  errorCalls : List Str
deriving DecidableEq

/-- Behaviour of `connectSSE` on a response that settles without network failure or
abort: a non-ok status reads the full body, throws `HTTP <status>: <body>`,
and the thrown `Error` (named `"Error"`, so not filtered) reaches `onError`;
an ok status streams every chunk through the frame parser and `onEvent`. -/
def connectSSE (parse : Str → Option J) (r : HttpResponse) : SSEOutcome J :=
  if respOk r then
    SSEOutcome.mk (parseSSE parse r.bodyChunks) []
  else
    match catchFilter (JsError.mk "Error".toList (httpErrorMsg r)) with
    | some err => SSEOutcome.mk [] [err.message]
    | none => SSEOutcome.mk [] []

/-! Payload data model (src/frontend/src/api/types.ts).

Numeric payload fields are modelled as `Int`. -/

/-- Type `DimensionScore` from types.ts (severity kept as a plain string). -/
structure DimensionScore where
  name : Str
  score : Int
  findings : List Str
  severity : Str
deriving DecidableEq

/-- Type `Issue` from types.ts. -/
structure Issue where
  id : Str
  dimension : Str
  severity : Str
  description : Str
  location : Str
  recommendation : Str
deriving DecidableEq

/-- Type `Suggestion` from types.ts. -/
structure Suggestion where
  id : Str
  original_text : Str
  suggested_text : Str
  rationale : Str
deriving DecidableEq

/-- Type `AnalysisResult` from types.ts. -/
structure AnalysisResult where
  artifact_type : Str
  overall_score : Int
  dimensions : List DimensionScore
  issues : List Issue
  suggestions : List Suggestion
  iteration_number : Nat
deriving DecidableEq

/-- Type `ComparisonReport` from types.ts. -/
structure ComparisonReport where
  previous_iteration : Nat
  current_iteration : Nat
  previous_score : Int
  current_score : Int
  score_delta : Int
  improved_dimensions : List Str
  regressed_dimensions : List Str
  resolved_issues : List Str
  new_issues : List Str
deriving DecidableEq

/-- The fields of a dynamic event payload (`Record<string, unknown>`) that
the iterate flow reads: `message` (progress events; `(… as string) || ""`
makes an absent field indistinguishable from an empty string, so a plain
`Str` suffices), and `result` / `comparison` / `is_ready` (the
`IterationResult` shape that `extractResult` casts a `complete` payload to;
absent object fields are `Option.none`, an absent `is_ready` is falsy and
modelled `false`). -/
structure PagePayload where
  message : Str
  result : Option AnalysisResult
  comparison : Option ComparisonReport
  is_ready : Bool
deriving DecidableEq

/-- An SSE event as delivered to the callbacks of the iterate flow. -/
structure PageEvent where
  event : Str
  data : PagePayload
deriving DecidableEq

/-! Stream-state projection (`useSSE`, src/frontend/src/hooks/useSSE.ts).

Here `SSEState<T>` has `T` instantiated at the `IterationResult` of the iterate page;
since `extractResult` there is the identity cast `event.data as unknown as
IterationResult`, the stored result is the payload itself. -/

/-- Type `SSEState` from useSSE.ts. -/
structure SSEState where
  loading : Bool
  progress : Str
  progressDetail : Option PagePayload
  result : Option PagePayload
  error : Option Str
deriving DecidableEq

/-- The `useState` initial value of `useSSE` (lines 14–20). -/
def initialStream : SSEState :=
  SSEState.mk false [] none none none

/-- The state written by `start` (useSSE.ts lines 35–41) before the new
request is issued. -/
def startState : SSEState :=
  SSEState.mk true "Starting...".toList none none none

/-- The event name literals dispatched on by the `useSSE` event callback. -/
def progressName : Str := "progress".toList

/-- The `dimension_complete` event name. -/
def dimensionCompleteName : Str := "dimension_complete".toList

/-- The `step_complete` event name. -/
def stepCompleteName : Str := "step_complete".toList

/-- The `artifact_complete` event name. -/
def artifactCompleteName : Str := "artifact_complete".toList

/-- The terminal `complete` event name. -/
def completeName : Str := "complete".toList

/-- The event callback of `useSSE.start` (useSSE.ts lines 50–71) as a
function of the current state: `progress` updates the message and detail;
the three `*_complete` progress events are forwarded to the observer only
and leave the state alone; `complete` replaces the whole state with the
terminal one; any other event name is ignored. -/
def applyEvent (s : SSEState) (e : PageEvent) : SSEState :=
  if e.event = progressName then
    { s with progress := e.data.message, progressDetail := some e.data }
  else if e.event = dimensionCompleteName ∨ e.event = stepCompleteName
      ∨ e.event = artifactCompleteName then
    s
  else if e.event = completeName then
    SSEState.mk false [] none (some e.data) none
  else s

/-- The error callback of `useSSE.start` (useSSE.ts lines 73–79). -/
def applyError (s : SSEState) (msg : Str) : SSEState :=
  { s with loading := false, error := some msg }

/-- The state update performed by `useSSE.cancel` (useSSE.ts line 89). -/
def cancelState (s : SSEState) : SSEState :=
  { s with loading := false, progress := [] }

/-! Iteration session controller (IteratePage.tsx).

The commit logic at IteratePage.tsx lines 72–81 runs whenever a terminal
result is present: it appends a history entry exactly when
`history.length < (result.result?.iteration_number || 0)`, and then copies
`is_ready` and `comparison` from the payload. -/

/-- The guard value `result.result?.iteration_number || 0`: the declared iteration number of
a terminal payload, defaulting to `0` when the nested result is absent. -/
def iterNumOf (p : PagePayload) : Nat :=
  match p.result with
  | some a => a.iteration_number
  | none => 0

/-- The committed score `result.result.overall_score` (only read after the commit guard, which
forces the nested result to be present). -/
def scoreOf (p : PagePayload) : Int :=
  match p.result with
  | some a => a.overall_score
  | none => 0

/-- One entry of the iteration history kept by `IteratePage`. -/
structure HistEntry where
  iteration : Nat
  score : Int
deriving DecidableEq

/-- The history produced by the commit block at IteratePage.tsx lines
72–81.  That block runs in the component body, during render: calling
`setHistory` from render immediately re-renders, the guard
`history.length < (result.result?.iteration_number || 0)` is re-evaluated
against the grown history with the unchanged `analysis.result`, and the
block fires again.  The loop therefore appends one duplicate entry
`\x7b iteration_number, overall_score \x7d` per render pass until
`history.length` has reached the declared iteration number. -/
def commitLoop (n : Nat) (sc : Int) (h : List HistEntry) : List HistEntry :=
  if _hlt : h.length < n then commitLoop n sc (h ++ [HistEntry.mk n sc]) else h
termination_by n - h.length
decreasing_by
  simp only [List.length_append, List.length_cons, List.length_nil]
  omega

/-- The observable state of one iterate session: the live controller
(`controllerRef`), the set of aborted round handles, the shared stream
state, the history / readiness / comparison state of the page, the configured
threshold (sent to the server at session creation and never consulted again
by the client), and the ordered log of messages delivered to the error
callback. -/
structure SessionState where
  current : Option Nat
  aborted : List Nat
  stream : SSEState
  history : List HistEntry
  isReady : Bool
  comparison : Option ComparisonReport
  threshold : Int
  errorLog : List Str
deriving DecidableEq

/-- The actions that drive a session: the user starts round `rid`
(`useSSE.start`, which first aborts the previous handle), the network
delivers one parsed event for round `rid`, the fetch promise of round `rid`
rejects with `err`, or the user cancels (`useSSE.cancel`). -/
inductive Action where
  | start (rid : Nat)
  | deliver (rid : Nat) (e : PageEvent)
  | fail (rid : Nat) (err : JsError)
  | cancel
deriving DecidableEq

/-- Mark the current handle aborted (`controllerRef.current?.abort()`). -/
def abortCurrent (s : SessionState) : SessionState :=
  match s.current with
  | some r => { s with aborted := r :: s.aborted }
  | none => s

/-- One step of the session machine.

`start` aborts the previous handle, resets the stream state and installs
the new handle (useSSE.ts lines 32–41, 82).  `deliver` applies the event
callback, and — when the event is terminal — runs the IteratePage
render-phase commit loop: when the guard
`history.length < (iteration_number || 0)` holds, `commitLoop` appends
duplicate entries until the length reaches the declared number, and each
pass copies `is_ready` and `comparison` from the unchanged payload (the
reader of an aborted round has been closed, so its callbacks never run:
this guard is the AbortController semantics, the only protection the code
has, since the callbacks themselves never check round identity).  `fail`
runs the catch clause: an aborted fetch rejects with `AbortError` and any
`AbortError` is filtered before `onError`.  `cancel` aborts the current
handle and applies the cancel state update. -/
def step (s : SessionState) : Action → SessionState
  | Action.start rid =>
    let s1 := abortCurrent s
    { s1 with current := some rid, stream := startState }
  | Action.deliver rid e =>
    if s.aborted.contains rid then s
    else
      let st := applyEvent s.stream e
      if e.event = completeName then
        if s.history.length < iterNumOf e.data then
          { s with stream := st,
                   history := commitLoop (iterNumOf e.data) (scoreOf e.data) s.history,
                   isReady := e.data.is_ready,
                   comparison := e.data.comparison }
        else { s with stream := st }
      else { s with stream := st }
  | Action.fail rid err =>
    if s.aborted.contains rid then s
    else
      match catchFilter err with
      | some e =>
        { s with stream := applyError s.stream e.message,
                 errorLog := s.errorLog ++ [e.message] }
      | none => s
  | Action.cancel =>
    let s1 := abortCurrent s
    { s1 with stream := cancelState s1.stream }

/-- Run a list of actions in order. -/
def run (s : SessionState) : List Action → SessionState
  | [] => s
  | a :: rest => run (step s a) rest

/-- A fresh iterate session: no handle, empty history, default threshold 80
(`useState(80)`), initial stream state. -/
def initState : SessionState :=
  SessionState.mk none [] initialStream [] false none 80 []

/-! Concrete fixtures used to evaluate the model on explicit inputs. -/

/-- A terminal payload declaring iteration number `n` and overall score
`sc`, with readiness flag `rdy` and comparison `cmp`. -/
def payloadAt (n : Nat) (sc : Int) (rdy : Bool) (cmp : Option ComparisonReport) :
    PagePayload :=
  PagePayload.mk [] (some (AnalysisResult.mk "requirements_document".toList sc [] [] [] n)) cmp rdy

/-- A terminal `complete` event declaring iteration `n` with score `sc`. -/
def completeEvent (n : Nat) (sc : Int) : PageEvent :=
  PageEvent.mk completeName (payloadAt n sc false none)

/-- A `progress` event carrying the message `step1`. -/
def progressEvent : PageEvent :=
  PageEvent.mk progressName (PagePayload.mk "step1".toList none none false)

/-- A session that has completed one round (score 55), with round handle 1
still current: the setting of the protocol-error scenarios in the spec. -/
def stateWithOneRound : SessionState :=
  { initState with current := some 1, history := [HistEntry.mk 1 55] }

/-- A comparison report whose iteration indices (previous 5, current 7) are
inconsistent with a history of length 1. -/
def badComparison : ComparisonReport :=
  ComparisonReport.mk 5 7 50 60 10 [] [] [] []

/-- A membership test on actions: is `a` a delivery for round `rid`. -/
def anyDeliver (rid : Nat) (a : Action) : Prop :=
  ∃ ev, a = Action.deliver rid ev

/-- A delivery for round `rid` of a non-terminal event. -/
def nonTerminalDeliver (rid : Nat) (a : Action) : Prop :=
  ∃ ev, a = Action.deliver rid ev ∧ ev.event ≠ completeName

/-! Helper lemmas. -/

theorem startsWith_self_append (p t : Str) : startsWith p (p ++ t) = true := by
  induction p with
  | nil => rfl
  | cons c cs ih => simp [startsWith, ih]

theorem commitLoop_eq (n : Nat) (sc : Int) (h : List HistEntry) :
    commitLoop n sc h = h ++ List.replicate (n - h.length) (HistEntry.mk n sc) := by
  suffices H : ∀ (k : Nat) (l : List HistEntry), n - l.length = k →
      commitLoop n sc l = l ++ List.replicate (n - l.length) (HistEntry.mk n sc) from
    H (n - h.length) h rfl
  intro k
  induction k with
  | zero =>
    intro l hfuel
    have hle : ¬ l.length < n := by omega
    rw [commitLoop.eq_def, dif_neg hle, hfuel]
    simp
  | succ k ih =>
    intro l hfuel
    have hlt : l.length < n := by omega
    have h1 : n - (l ++ [HistEntry.mk n sc]).length = k := by
      simp only [List.length_append, List.length_cons, List.length_nil]
      omega
    rw [commitLoop.eq_def, dif_pos hlt, ih (l ++ [HistEntry.mk n sc]) h1, h1, hfuel,
      List.replicate_succ]
    simp

theorem deliver_preserves_ctrl (s : SessionState) (rid : Nat) (e : PageEvent) :
    (step s (Action.deliver rid e)).current = s.current
    ∧ (step s (Action.deliver rid e)).aborted = s.aborted := by
  by_cases hc : rid ∈ s.aborted
  · simp [step, hc]
  · by_cases he : e.event = completeName
    · by_cases hg : s.history.length < iterNumOf e.data
      · simp [step, hc, he, hg]
      · simp [step, hc, he, hg]
    · simp [step, hc, he]

theorem deliver_aborted_drop (s : SessionState) (rid : Nat) (e : PageEvent)
    (h : rid ∈ s.aborted) :
    step s (Action.deliver rid e) = s := by
  simp [step, h]

theorem deliver_nonterminal_history (s : SessionState) (rid : Nat) (e : PageEvent)
    (he : e.event ≠ completeName) :
    (step s (Action.deliver rid e)).history = s.history := by
  by_cases hc : rid ∈ s.aborted
  · simp [step, hc]
  · simp [step, hc, he]

theorem step_start_fields (s : SessionState) (rid : Nat) :
    (step s (Action.start rid)).history = s.history
    ∧ (step s (Action.start rid)).current = some rid
    ∧ (step s (Action.start rid)).aborted
        = (match s.current with
            | some r => r :: s.aborted
            | none => s.aborted) := by
  cases hc : s.current <;> simp [step, abortCurrent, hc]

theorem run_delivers_frame (acts : List Action) (s : SessionState)
    (h : ∀ a ∈ acts, ∃ rid ev, a = Action.deliver rid ev
          ∧ (rid ∈ s.aborted ∨ ev.event ≠ completeName)) :
    (run s acts).history = s.history
    ∧ (run s acts).aborted = s.aborted
    ∧ (run s acts).current = s.current := by
  induction acts generalizing s with
  | nil => exact ⟨rfl, rfl, rfl⟩
  | cons a rest ih =>
    obtain ⟨rid, ev, rfl, hcase⟩ := h a (List.mem_cons_self a rest)
    have hctrl := deliver_preserves_ctrl s rid ev
    have hhist : (step s (Action.deliver rid ev)).history = s.history := by
      cases hcase with
      | inl hab => rw [deliver_aborted_drop s rid ev hab]
      | inr hnt => exact deliver_nonterminal_history s rid ev hnt
    have hrest := ih (step s (Action.deliver rid ev)) (by
      intro a ha
      obtain ⟨rid2, ev2, rfl, hc2⟩ := h _ (List.mem_cons_of_mem _ ha)
      exact ⟨rid2, ev2, rfl, by rw [hctrl.2]; exact hc2⟩)
    refine ⟨?_, ?_, ?_⟩
    · rw [show run s (Action.deliver rid ev :: rest)
            = run (step s (Action.deliver rid ev)) rest from rfl,
        hrest.1, hhist]
    · rw [show run s (Action.deliver rid ev :: rest)
            = run (step s (Action.deliver rid ev)) rest from rfl,
        hrest.2.1, hctrl.2]
    · rw [show run s (Action.deliver rid ev :: rest)
            = run (step s (Action.deliver rid ev)) rest from rfl,
        hrest.2.2, hctrl.1]

theorem run_append (xs ys : List Action) (s : SessionState) :
    run s (xs ++ ys) = run (run s xs) ys := by
  induction xs generalizing s with
  | nil => rfl
  | cons a rest ih => exact ih (step s a)

theorem run_single (a : Action) (s : SessionState) : run s [a] = step s a := rfl

/-! Claim theorems. -/

/-- C9: every `start` sets the stream state to exactly
`loading = true, progress = "Starting...", progressDetail = none,
result = none, error = none` before any event of the new round is
processed, so no terminal field of the previous round survives the start. -/
theorem round_start_resets_stream (s : SessionState) (rid : Nat) :
    (step s (Action.start rid)).stream = startState
    ∧ startState = SSEState.mk true "Starting...".toList none none none :=
  ⟨rfl, rfl⟩

/-- C9 witness: the reset observed on a concrete session start. -/
theorem round_start_resets_stream_witness :
    (step stateWithOneRound (Action.start 2)).stream = startState :=
  (round_start_resets_stream stateWithOneRound 2).1

/-- C10: `cancel` sets `loading` to `false` and the progress message to the
empty string, and leaves `result`, `progressDetail` and `error` exactly as
they were at the moment of cancellation. -/
theorem cancel_frame_effect (s : SessionState) :
    (step s Action.cancel).stream.loading = false
    ∧ (step s Action.cancel).stream.progress = []
    ∧ (step s Action.cancel).stream.result = s.stream.result
    ∧ (step s Action.cancel).stream.progressDetail = s.stream.progressDetail
    ∧ (step s Action.cancel).stream.error = s.stream.error := by
  cases hc : s.current <;> simp [step, abortCurrent, hc, cancelState]

/-- C10 witness: the frame effect of `cancel` on a concrete session. -/
theorem cancel_frame_effect_witness :
    (step stateWithOneRound Action.cancel).stream.result
      = stateWithOneRound.stream.result :=
  (cancel_frame_effect stateWithOneRound).2.2.1

/-- C5: cancellation is not an error: `cancel` changes neither the history
nor the error-callback log; the `AbortError` rejection of the aborted fetch
is swallowed without any state change; and the error-callback log can only
grow on a failure whose name is not `AbortError`. -/
theorem cancel_is_not_an_error (s : SessionState) :
    (step s Action.cancel).errorLog = s.errorLog
    ∧ (step s Action.cancel).history = s.history
    ∧ (∀ rid : Nat, step s (Action.fail rid abortError) = s)
    ∧ (∀ (rid : Nat) (err : JsError),
        (step s (Action.fail rid err)).errorLog ≠ s.errorLog → err.name ≠ abortName) := by
  refine ⟨?_, ?_, ?_, ?_⟩
  · cases hc : s.current <;> simp [step, abortCurrent, hc, cancelState]
  · cases hc : s.current <;> simp [step, abortCurrent, hc, cancelState]
  · intro rid
    by_cases hc : rid ∈ s.aborted
    · simp [step, hc]
    · simp [step, hc, catchFilter, abortError]
  · intro rid err hlog hname
    apply hlog
    by_cases hc : rid ∈ s.aborted
    · simp [step, hc]
    · simp [step, hc, catchFilter, hname]

/-- C5 witness: a concrete cancel followed by the abort rejection of the
cancelled round leaves the session untouched. -/
theorem cancel_is_not_an_error_witness :
    (step stateWithOneRound Action.cancel).history = stateWithOneRound.history
    ∧ step (step stateWithOneRound Action.cancel) (Action.fail 1 abortError)
        = step stateWithOneRound Action.cancel :=
  ⟨(cancel_is_not_an_error stateWithOneRound).2.1,
    (cancel_is_not_an_error (step stateWithOneRound Action.cancel)).2.2.1 1⟩

/-- C7: a non-2xx response is a terminal error: the frame callback is never
invoked, and the error callback is invoked exactly once with the message
`HTTP <status>: <full body>`. -/
theorem non2xx_terminal_error {J : Type} (parse : Str → Option J) (r : HttpResponse)
    (h : respOk r = false) :
    (connectSSE parse r).events = []
    ∧ (connectSSE parse r).errorCalls
        = ["HTTP ".toList ++ (Nat.repr r.status).toList ++ ": ".toList ++ bodyText r] := by
  have hcf : catchFilter (JsError.mk "Error".toList (httpErrorMsg r))
      = some (JsError.mk "Error".toList (httpErrorMsg r)) := rfl
  unfold connectSSE
  rw [if_neg (by simp [h]), hcf]
  exact ⟨rfl, rfl⟩

/-- C7 witness: a concrete 404 whose body is `not found`. -/
theorem non2xx_terminal_error_witness :
    respOk (HttpResponse.mk 404 ["not found".toList]) = false
    ∧ (connectSSE noParse (HttpResponse.mk 404 ["not found".toList])).events = []
    ∧ (connectSSE noParse (HttpResponse.mk 404 ["not found".toList])).errorCalls
        = ["HTTP ".toList ++ (Nat.repr 404).toList ++ ": ".toList
            ++ bodyText (HttpResponse.mk 404 ["not found".toList])] :=
  ⟨by decide, (non2xx_terminal_error noParse (HttpResponse.mk 404 ["not found".toList]) (by decide)).1,
    (non2xx_terminal_error noParse (HttpResponse.mk 404 ["not found".toList]) (by decide)).2⟩

/-- C1: the frame parser is NOT chunk-boundary independent.  `currentEvent`
and `currentData` are declared inside the chunk loop of `connectSSE`, so a
frame whose `event:` line and `data:`/blank lines arrive in different
chunks is silently dropped: fed as two chunks the stream below yields no
event, fed as one chunk it yields one. -/
theorem chunk_boundary_dependence_bug :
    parseSSE noParse ["event: progress\n".toList, "data: hi\n\n".toList] = []
    ∧ parseSSE noParse ["event: progress\ndata: hi\n\n".toList]
        = [SSEEvent.mk "progress".toList (SSEData.raw "hi".toList)] :=
  ⟨rfl, rfl⟩

/-- C2 counterexample: a terminal payload declaring `iteration_number = 3`
while history has exactly 1 entry is NOT rejected — the render-phase commit
re-fires while `history.length < iteration_number`, so two duplicate
entries are appended and history grows to length 3 (the claim says it
stays at length 1). -/
theorem iteration_guard_cex :
    stateWithOneRound.history = [HistEntry.mk 1 55]
    ∧ iterNumOf (completeEvent 3 90).data = 3
    ∧ (step stateWithOneRound (Action.deliver 1 (completeEvent 3 90))).history
        = [HistEntry.mk 1 55, HistEntry.mk 3 90, HistEntry.mk 3 90] := by
  refine ⟨rfl, rfl, ?_⟩
  have hh : (step stateWithOneRound (Action.deliver 1 (completeEvent 3 90))).history
      = commitLoop 3 90 [HistEntry.mk 1 55] := rfl
  rw [hh, commitLoop_eq]
  rfl

/-- C2 amended: a terminal `complete` result delivered to a live round is
never rejected; when its declared iteration number (0 when the nested
result is absent) is strictly greater than `history.length`, the
render-phase commit loop appends duplicate entries carrying the declared
number and score until `history.length` reaches that number, and otherwise
history is unchanged — there is no equality check and no protocol-error
rejection. -/
theorem iteration_guard_amended (s : SessionState) (rid : Nat) (e : PageEvent)
    (hlive : rid ∉ s.aborted) (he : e.event = completeName) :
    (step s (Action.deliver rid e)).history
      = (if s.history.length < iterNumOf e.data
          then s.history ++ List.replicate (iterNumOf e.data - s.history.length)
                 (HistEntry.mk (iterNumOf e.data) (scoreOf e.data))
          else s.history) := by
  by_cases hg : s.history.length < iterNumOf e.data
  · simp [step, hlive, he, hg, commitLoop_eq]
  · simp [step, hlive, he, hg]

/-- C2 amended witness: a concrete in-order completion (declared number 2
over a 1-entry history) appends exactly one entry. -/
theorem iteration_guard_amended_witness :
    (step stateWithOneRound (Action.deliver 1 (completeEvent 2 60))).history
      = (if stateWithOneRound.history.length < iterNumOf (completeEvent 2 60).data
          then stateWithOneRound.history
              ++ List.replicate
                   (iterNumOf (completeEvent 2 60).data - stateWithOneRound.history.length)
                   (HistEntry.mk (iterNumOf (completeEvent 2 60).data)
                     (scoreOf (completeEvent 2 60).data))
          else stateWithOneRound.history) :=
  iteration_guard_amended stateWithOneRound 1 (completeEvent 2 60) (by decide) rfl

/-- C4 counterexample: a committed round with score 82 against threshold 80
and payload flag `is_ready = false` leaves `isReady` false, refuting
"`isReady` is true iff the latest score meets the threshold": the client
copies the server-sent flag and never compares score to threshold. -/
theorem readiness_cex :
    stateWithOneRound.threshold = 80
    ∧ scoreOf (payloadAt 2 82 false none) = 82
    ∧ (step stateWithOneRound
        (Action.deliver 1 (PageEvent.mk completeName (payloadAt 2 82 false none)))).history.length = 2
    ∧ (step stateWithOneRound
        (Action.deliver 1 (PageEvent.mk completeName (payloadAt 2 82 false none)))).isReady = false := by
  refine ⟨rfl, rfl, ?_, rfl⟩
  have hh : (step stateWithOneRound
      (Action.deliver 1 (PageEvent.mk completeName (payloadAt 2 82 false none)))).history
      = commitLoop 2 82 [HistEntry.mk 1 55] := rfl
  rw [hh, commitLoop_eq]
  rfl

/-- C4 amended: after a terminal result on a live round, `isReady` equals
the `is_ready` flag of the payload when the round commits, and is unchanged
otherwise; the client never recomputes it from score and threshold. -/
theorem readiness_amended (s : SessionState) (rid : Nat) (e : PageEvent)
    (hlive : rid ∉ s.aborted) (he : e.event = completeName) :
    (step s (Action.deliver rid e)).isReady
      = (if s.history.length < iterNumOf e.data then e.data.is_ready else s.isReady) := by
  by_cases hg : s.history.length < iterNumOf e.data
  · simp [step, hlive, he, hg]
  · simp [step, hlive, he, hg]

/-- C4 amended witness: a concrete commit copies the payload flag. -/
theorem readiness_amended_witness :
    (step stateWithOneRound (Action.deliver 1 (PageEvent.mk completeName (payloadAt 2 82 true none)))).isReady
      = (if stateWithOneRound.history.length < iterNumOf (payloadAt 2 82 true none)
          then (payloadAt 2 82 true none).is_ready else stateWithOneRound.isReady) :=
  readiness_amended stateWithOneRound 1 (PageEvent.mk completeName (payloadAt 2 82 true none))
    (by decide) rfl

/-- C8 counterexample: a comparison report whose `previous_iteration` (5)
and `current_iteration` (7) are both inconsistent with a history of length
1 is nevertheless attached verbatim when the round commits — it is not
treated as absent. -/
theorem comparison_cex :
    badComparison.current_iteration ≠ stateWithOneRound.history.length + 1
    ∧ badComparison.previous_iteration ≠ stateWithOneRound.history.length
    ∧ (step stateWithOneRound
        (Action.deliver 1 (PageEvent.mk completeName (payloadAt 2 60 false (some badComparison))))).history.length = 2
    ∧ (step stateWithOneRound
        (Action.deliver 1 (PageEvent.mk completeName (payloadAt 2 60 false (some badComparison))))).comparison
        = some badComparison := by
  refine ⟨by decide, by decide, ?_, rfl⟩
  have hh : (step stateWithOneRound
      (Action.deliver 1 (PageEvent.mk completeName (payloadAt 2 60 false (some badComparison))))).history
      = commitLoop 2 60 [HistEntry.mk 1 55] := rfl
  rw [hh, commitLoop_eq]
  rfl

/-- C8 amended: when a terminal result on a live round commits, the
comparison of the payload is attached verbatim (`none` when absent) with no
verification of its iteration indices; when the round does not commit, the
stored comparison is unchanged. -/
theorem comparison_amended (s : SessionState) (rid : Nat) (e : PageEvent)
    (hlive : rid ∉ s.aborted) (he : e.event = completeName) :
    (step s (Action.deliver rid e)).comparison
      = (if s.history.length < iterNumOf e.data then e.data.comparison else s.comparison) := by
  by_cases hg : s.history.length < iterNumOf e.data
  · simp [step, hlive, he, hg]
  · simp [step, hlive, he, hg]

/-- C6: a complete frame — an `event:` line whose trimmed name is
non-empty, a `data:` line with non-empty payload, then a blank line — whose
payload fails to decode emits exactly one ParsedEvent carrying the raw
payload wrapper, and the parser continues on the remaining lines with both
pending fields reset; this holds whatever pending state preceded the
frame. -/
theorem malformed_frame_raw_wrapper {J : Type} (parse : Str → Option J)
    (e d ce cd : Str) (rest : List Str)
    (he : trimChars e ≠ []) (hd : d ≠ []) (hp : parse d = none) :
    processLines parse ((eventTag ++ e) :: (dataTag ++ d) :: [] :: rest) ce cd
      = SSEEvent.mk (trimChars e) (SSEData.raw d) :: processLines parse rest [] [] := by
  have h1 : startsWith eventTag (eventTag ++ e) = true := startsWith_self_append _ _
  have h2 : startsWith eventTag (dataTag ++ d) = false := rfl
  have h3 : startsWith dataTag (dataTag ++ d) = true := startsWith_self_append _ _
  have h4 : startsWith eventTag ([] : Str) = false := rfl
  have h5 : startsWith dataTag ([] : Str) = false := rfl
  have h6 : (eventTag ++ e).drop 7 = e := rfl
  have h7 : (dataTag ++ d).drop 6 = d := rfl
  simp only [processLines, h1, h2, h3, h4, h5, h6, h7, hp, if_true, if_false]
  simp [he, hd]

/-- C6 witness: a frame named `ping` whose payload `oops` fails to decode
yields exactly the raw-wrapper event. -/
theorem malformed_frame_raw_wrapper_witness :
    processLines noParse ((eventTag ++ "ping".toList) :: (dataTag ++ "oops".toList) :: [] :: []) [] []
      = [SSEEvent.mk (trimChars "ping".toList) (SSEData.raw "oops".toList)] := by
  have h := malformed_frame_raw_wrapper noParse "ping".toList "oops".toList [] [] []
    (by decide) (by decide) rfl
  simpa using h

/-- C8 amended witness: the mismatched comparison of the counterexample is
attached on a concrete commit. -/
theorem comparison_amended_witness :
    (step stateWithOneRound
        (Action.deliver 1 (PageEvent.mk completeName (payloadAt 2 60 false (some badComparison))))).comparison
      = (if stateWithOneRound.history.length < iterNumOf (payloadAt 2 60 false (some badComparison))
          then (payloadAt 2 60 false (some badComparison)).comparison
          else stateWithOneRound.comparison) :=
  comparison_amended stateWithOneRound 1
    (PageEvent.mk completeName (payloadAt 2 60 false (some badComparison))) (by decide) rfl

/-- C3: superseded rounds never commit.  Start round `r1` on a fresh
session, deliver any non-terminal events for it (it is still in flight),
then start round `r2`: the start aborts the handle of `r1`, so afterwards
every delivery for `r1` — including its terminal result, and whether it
arrives before or after the completion of `r2` — is discarded, and when
the terminal result of `r2` arrives, declaring the protocol-correct next
iteration number 1 (nothing has committed yet), exactly one history entry
is committed, carrying the result of `r2`; round `r1` contributes nothing.
(A larger declared number would additionally append duplicate entries
through the render-phase commit loop, the behaviour established by the C2
theorems — orthogonal to the superseding discipline proved here.) -/
theorem superseded_round_discarded (r1 r2 : Nat) (hr : r1 ≠ r2)
    (d1 d2 d3 : List Action) (e2 : PageEvent)
    (h1 : ∀ a ∈ d1, nonTerminalDeliver r1 a)
    (h2 : ∀ a ∈ d2, anyDeliver r1 a ∨ nonTerminalDeliver r2 a)
    (h3 : ∀ a ∈ d3, anyDeliver r1 a ∨ nonTerminalDeliver r2 a)
    (he : e2.event = completeName) (hn1 : iterNumOf e2.data = 1) :
    (run initState ([Action.start r1] ++ d1 ++ [Action.start r2]
        ++ d2 ++ [Action.deliver r2 e2] ++ d3)).history
      = [HistEntry.mk (iterNumOf e2.data) (scoreOf e2.data)] := by
  have hsplit : run initState ([Action.start r1] ++ d1 ++ [Action.start r2]
        ++ d2 ++ [Action.deliver r2 e2] ++ d3)
      = run (step (run (step (run (step initState (Action.start r1)) d1)
          (Action.start r2)) d2) (Action.deliver r2 e2)) d3 := by
    simp only [run_append, run_single]
  rw [hsplit]
  set s0 := step initState (Action.start r1) with hs0
  have hs0f : s0.history = [] ∧ s0.aborted = [] ∧ s0.current = some r1 := ⟨rfl, rfl, rfl⟩
  have hA := run_delivers_frame d1 s0 (by
    intro a ha
    obtain ⟨ev, rfl, hnt⟩ := h1 a ha
    exact ⟨r1, ev, rfl, Or.inr hnt⟩)
  set sA := run s0 d1 with hsA
  have hAh : sA.history = [] := hA.1.trans hs0f.1
  have hAab : sA.aborted = [] := hA.2.1.trans hs0f.2.1
  have hAcur : sA.current = some r1 := hA.2.2.trans hs0f.2.2
  set sB := step sA (Action.start r2) with hsB
  have hBf := step_start_fields sA r2
  have hBh : sB.history = [] := hBf.1.trans hAh
  have hBab : sB.aborted = [r1] := by
    rw [hsB, hBf.2.2, hAcur, hAab]
  have hC := run_delivers_frame d2 sB (by
    intro a ha
    rcases h2 a ha with hx | hx
    · obtain ⟨ev, rfl⟩ := hx
      exact ⟨r1, ev, rfl, Or.inl (by rw [hBab]; exact List.mem_cons_self r1 [])⟩
    · obtain ⟨ev, rfl, hnt⟩ := hx
      exact ⟨r2, ev, rfl, Or.inr hnt⟩)
  set sC := run sB d2 with hsC
  have hCh : sC.history = [] := hC.1.trans hBh
  have hCab : sC.aborted = [r1] := hC.2.1.trans hBab
  have hr2 : r2 ∉ sC.aborted := by
    rw [hCab]
    intro hm
    exact hr (List.mem_singleton.mp hm).symm
  have hg : sC.history.length < iterNumOf e2.data := by
    rw [hCh, hn1]
    simp
  set sD := step sC (Action.deliver r2 e2) with hsD
  have hDh : sD.history = [HistEntry.mk (iterNumOf e2.data) (scoreOf e2.data)] := by
    rw [hsD]
    have hstep : (step sC (Action.deliver r2 e2)).history
        = commitLoop (iterNumOf e2.data) (scoreOf e2.data) sC.history := by
      simp [step, hr2, he, hg]
    rw [hstep, commitLoop_eq, hCh, hn1]
    rfl
  have hDab : sD.aborted = [r1] :=
    ((deliver_preserves_ctrl sC r2 e2).2).trans hCab
  have hE := run_delivers_frame d3 sD (by
    intro a ha
    rcases h3 a ha with hx | hx
    · obtain ⟨ev, rfl⟩ := hx
      exact ⟨r1, ev, rfl, Or.inl (by rw [hDab]; exact List.mem_cons_self r1 [])⟩
    · obtain ⟨ev, rfl, hnt⟩ := hx
      exact ⟨r2, ev, rfl, Or.inr hnt⟩)
  exact hE.1.trans hDh

/-- C3 witness: round 1 is started and receives a progress event, round 2
is then started (superseding round 1); the late terminal result of round 1
(score 55) is discarded, and the terminal result of round 2
(score 78) commits: history holds exactly the one entry from round 2. -/
theorem superseded_round_discarded_witness :
    (run initState [Action.start 1, Action.deliver 1 progressEvent, Action.start 2,
        Action.deliver 1 (completeEvent 1 55), Action.deliver 2 (completeEvent 1 78)]).history
      = [HistEntry.mk (iterNumOf (completeEvent 1 78).data) (scoreOf (completeEvent 1 78).data)] :=
  superseded_round_discarded 1 2 (by decide)
    [Action.deliver 1 progressEvent] [Action.deliver 1 (completeEvent 1 55)] []
    (completeEvent 1 78)
    (by
      intro a ha
      rcases List.mem_singleton.mp ha with rfl
      exact ⟨progressEvent, rfl, by decide⟩)
    (by
      intro a ha
      rcases List.mem_singleton.mp ha with rfl
      exact Or.inl ⟨completeEvent 1 55, rfl⟩)
    (by intro a ha; exact absurd ha (List.not_mem_nil a))
    rfl rfl

end BAAssist
